import Mathlib

/-!
Verification of the zimai-resume backend core against its specification.

The development shallowly embeds the pieces of the repository that the
claims concern:

* the Response Coercer `processAIResponse` of `services/aiScorer.js`,
  over an untyped model of JavaScript values (`JSVal`);
* the batch driver `batchScoreResumes` of the same file, with the
  external scoring call abstracted as an oracle;
* the text normalizer `sanitizeText` of `utils/sanitizeText.js`,
  with each regex replacement implemented directly on character lists;
* the heuristic extractors `extractSkills` and `extractExperience`
  (years part) and the validator `validatePDF` of `services/pdfParser.js`.

JavaScript numbers are modelled as `Option ℚ` where `none` stands for NaN,
so that failed numeric coercions propagate through `Math.min`/`Math.max`
exactly as NaN does.
-/

/-- Whitespace class of JavaScript regular expressions and of
`String.prototype.trim`: space, tab, line terminators, form feed,
vertical tab, NBSP, BOM and the U+2028/U+2029 separators. -/
def isSpaceJS (c : Char) : Bool :=
  c == ' ' || c == '\t' || c == '\n' || c == '\r' ||
  c.toNat == 11 || c.toNat == 12 || c.toNat == 160 ||
  c.toNat == 0x2028 || c.toNat == 0x2029 || c.toNat == 0xFEFF

/-- Numeric value of a list of decimal digit characters (as `parseInt` reads
a digit run). -/
def digitsToNat (l : List Char) : Nat :=
  l.foldl (fun a c => a * 10 + (c.toNat - 48)) 0

/-- Untyped JavaScript values, as far as the scorer inspects them.
NaN is a separate constructor so that numeric coercion failures propagate. -/
inductive JSVal where
  | null
  | undefinedVal
  | bool (b : Bool)
  | num (q : ℚ)
  | nan
  | str (s : String)
  | arr (elems : List JSVal)
  | obj (fields : List (String × JSVal))

/-- JavaScript truthiness: `null`, `undefined`, `NaN`, `false`, `0` and the
empty string are falsy; every object (including the empty array) is truthy. -/
def truthy : JSVal → Bool
  | .null => false
  | .undefinedVal => false
  | .bool b => b
  | .num q => decide (q ≠ 0)
  | .nan => false
  | .str s => decide (s ≠ "")
  | .arr _ => true
  | .obj _ => true

/-- Property lookup in an object literal's field list.  The raw objects built
in this development use distinct keys, matching JS object semantics. -/
def lookupField : List (String × JSVal) → String → JSVal
  | [], _ => .undefinedVal
  | (k, v) :: rest, n => if k = n then v else lookupField rest n

/-- Plain property access `v.name` on a value that is not `null`/`undefined`
(access on those throws; the caller `processAIResponse` models the throw).
Strings and arrays expose `length`; other primitives have no own fields. -/
def fieldOf : JSVal → String → JSVal
  | .obj fs, n => lookupField fs n
  | .arr xs, n => if n = "length" then .num xs.length else .undefinedVal
  | .str s, n => if n = "length" then .num s.length else .undefinedVal
  | _, _ => .undefinedVal

/-- Optional chaining `v?.name`: yields `undefined` instead of throwing when
`v` is `null` or `undefined`. -/
def optChain : JSVal → String → JSVal
  | .null, _ => .undefinedVal
  | .undefinedVal, _ => .undefinedVal
  | v, n => fieldOf v n

/-- JavaScript `a || b`: the left operand when truthy, else the right. -/
def jsOr (a b : JSVal) : JSVal := if truthy a then a else b

/-- ToNumber on strings, modelled for the shapes exercised here: a
whitespace-only string converts to 0, an optionally signed decimal digit run
to its value, and anything else to NaN.  (Fractional and exponent literals,
which no theorem below touches, are approximated as NaN.) -/
def strToNumber (s : String) : Option ℚ :=
  let t := ((s.toList.dropWhile isSpaceJS).reverse.dropWhile isSpaceJS).reverse
  if t.isEmpty then some 0
  else
    match t with
    | '-' :: ds =>
        if ds ≠ [] ∧ ds.all Char.isDigit then some (-(digitsToNat ds : ℚ)) else none
    | '+' :: ds =>
        if ds ≠ [] ∧ ds.all Char.isDigit then some (digitsToNat ds : ℚ) else none
    | ds => if ds.all Char.isDigit then some (digitsToNat ds : ℚ) else none

/-- ToNumber coercion, with `none` standing for NaN.  Coercion of arrays and
objects (via ToPrimitive) is approximated as NaN; no theorem below depends on
its value other than that NaN propagates through the clamp. -/
def toNumber : JSVal → Option ℚ
  | .null => some 0
  | .undefinedVal => none
  | .bool b => some (if b then 1 else 0)
  | .num q => some q
  | .nan => none
  | .str s => strToNumber s
  | .arr _ => none
  | .obj _ => none

/-- Model of `Math.min(100, Math.max(0, x))`: NaN propagates, every actual
number is clamped into [0, 100]. -/
def clampScore (v : Option ℚ) : Option ℚ := v.map fun q => min 100 (max 0 q)

/-- Model of `Math.max(0, x)`: NaN propagates, numbers are floored at 0. -/
def floorZero (v : Option ℚ) : Option ℚ := v.map fun q => max 0 q

/-- Model of `Array.isArray(v) ? v.slice(0, n) : []`. -/
def listClip (v : JSVal) (n : Nat) : List JSVal :=
  match v with
  | .arr xs => xs.take n
  | _ => []

/-- Heuristically recovered identity facts (`extractBasicInfo` output shape);
each field is a string or null. -/
structure BasicInfo where
  candidateName : Option String
  email : Option String
  phone : Option String
  location : Option String

/-- The coercer's output shape.  Numeric fields are JS numbers
(`Option ℚ`, `none` = NaN); `summary` and `keywordsMatched` keep the raw
JS value the code stores there; the nested `breakdown` object is flattened
into four fields. -/
structure ScoringResult where
  overallScore : Option ℚ
  breakdownSkills : Option ℚ
  breakdownExperience : Option ℚ
  breakdownEducation : Option ℚ
  breakdownRelevance : Option ℚ
  strengths : List JSVal
  weaknesses : List JSVal
  keywordMatches : List JSVal
  experienceYears : Option ℚ
  summary : JSVal
  recommendations : List JSVal
  redFlags : List JSVal
  fitScore : Option ℚ
  candidateName : Option String
  keywordsMatched : JSVal

/-- The fixed fallback result returned by the catch branch of
`processAIResponse`. -/
def fallbackResult (b : BasicInfo) : ScoringResult :=
  { overallScore := some 50
    breakdownSkills := some 50
    breakdownExperience := some 50
    breakdownEducation := some 50
    breakdownRelevance := some 50
    strengths := [.str "Resume processed"]
    weaknesses := [.str "Unable to complete full analysis"]
    keywordMatches := []
    experienceYears := some 0
    summary := .str "Basic analysis completed with limited AI processing."
    recommendations := [.str "Manual review recommended"]
    redFlags := []
    fitScore := some 50
    candidateName := b.candidateName
    keywordsMatched := .num 0 }

/-- Field-by-field coercion performed by the try branch of
`processAIResponse` on a non-nullish raw value `a`:
each score is `Math.min(100, Math.max(0, x || 0))`, each list is
`Array.isArray(x) ? x.slice(0, cap) : []`, `experienceYears` is
`Math.max(0, x || 0)`, `summary` is `x || default`, `fitScore` is
`Math.min(100, Math.max(0, fitScore || overallScore || 0))`,
`candidateName` is copied from `basicInfo`, and `keywordsMatched` is
`keywordMatches?.length || 0` on the raw (untruncated) value. -/
def coerceFields (a : JSVal) (b : BasicInfo) : ScoringResult :=
  { overallScore := clampScore (toNumber (jsOr (fieldOf a "overallScore") (.num 0)))
    breakdownSkills :=
      clampScore (toNumber (jsOr (optChain (fieldOf a "breakdown") "skills") (.num 0)))
    breakdownExperience :=
      clampScore (toNumber (jsOr (optChain (fieldOf a "breakdown") "experience") (.num 0)))
    breakdownEducation :=
      clampScore (toNumber (jsOr (optChain (fieldOf a "breakdown") "education") (.num 0)))
    breakdownRelevance :=
      clampScore (toNumber (jsOr (optChain (fieldOf a "breakdown") "relevance") (.num 0)))
    strengths := listClip (fieldOf a "strengths") 10
    weaknesses := listClip (fieldOf a "weaknesses") 10
    keywordMatches := listClip (fieldOf a "keywordMatches") 20
    experienceYears := floorZero (toNumber (jsOr (fieldOf a "experienceYears") (.num 0)))
    summary := jsOr (fieldOf a "summary") (.str "Resume analyzed successfully.")
    recommendations := listClip (fieldOf a "recommendations") 5
    redFlags := listClip (fieldOf a "redFlags") 5
    fitScore :=
      clampScore (toNumber
        (jsOr (jsOr (fieldOf a "fitScore") (fieldOf a "overallScore")) (.num 0)))
    candidateName := b.candidateName
    keywordsMatched := jsOr (optChain (fieldOf a "keywordMatches") "length") (.num 0) }

/-- The Response Coercer.  Inside the source's try block the only expressions
that can throw are the plain property accesses `aiResponse.xxx`, which throw
exactly when `aiResponse` is `null` or `undefined` (`basicInfo` is a proper
record, and all other accesses use `?.`); the catch branch then returns the
fixed fallback.  Hence: nullish input yields the fallback, everything else
flows through `coerceFields`. -/
def processAIResponse (aiResponse : JSVal) (basicInfo : BasicInfo) : ScoringResult :=
  match aiResponse with
  | .null => fallbackResult basicInfo
  | .undefinedVal => fallbackResult basicInfo
  | a => coerceFields a basicInfo

/-- Value produced by the normal coercion path when every property access on
the raw value yields `undefined` — the case for every primitive non-nullish
input (string, number, boolean, NaN). -/
def primDefaultResult (b : BasicInfo) : ScoringResult :=
  { overallScore := some 0
    breakdownSkills := some 0
    breakdownExperience := some 0
    breakdownEducation := some 0
    breakdownRelevance := some 0
    strengths := []
    weaknesses := []
    keywordMatches := []
    experienceYears := some 0
    summary := .str "Resume analyzed successfully."
    recommendations := []
    redFlags := []
    fitScore := some 0
    candidateName := b.candidateName
    keywordsMatched := .num 0 }

/-- One document of a batch, as `batchScoreResumes` consumes it. -/
structure ResumeDoc where
  id : String
  extractedText : String
  basicInfo : BasicInfo

/-- Per-document outcome pushed by `batchScoreResumes`: on success the
scoring result is spread into the entry (together with `success: true`), on
failure the entry records `success: false` and the error message (the source
additionally stores the constants `overallScore: 0` and
`summary: 'Scoring failed'` in the failure entry). -/
inductive BatchOutcome where
  | ok (resumeId : String) (result : ScoringResult)
  | failed (resumeId : String) (errorMessage : String)

/-- Identifier carried by a batch outcome. -/
def BatchOutcome.resumeId : BatchOutcome → String
  | .ok i _ => i
  | .failed i _ => i

/-- Success flag of a batch outcome. -/
def BatchOutcome.success : BatchOutcome → Bool
  | .ok _ _ => true
  | .failed _ _ => false

/-- Body of the loop of `batchScoreResumes` for one document: the awaited
`scoreResume` call is abstracted as the oracle `score` (it performs the
external model call and may throw); the try branch pushes a success entry,
the catch branch a failure entry with the thrown message. -/
def outcomeFor (score : ResumeDoc → Except String ScoringResult) (r : ResumeDoc) :
    BatchOutcome :=
  match score r with
  | .ok res => .ok r.id res
  | .error msg => .failed r.id msg

/-- Sequential batch loop of `batchScoreResumes`.  The fixed one-second
pause between iterations has no effect on the returned list and is dropped. -/
def batchScoreResumes (score : ResumeDoc → Except String ScoringResult) :
    List ResumeDoc → List BatchOutcome
  | [] => []
  | r :: rest => outcomeFor score r :: batchScoreResumes score rest

/-- Result shape of `validatePDF`. -/
structure PDFValidation where
  isValid : Bool
  error : Option String
deriving DecidableEq

/-- Bytes of the ASCII string "%PDF"; `buffer.slice(0, 4).toString()` equals
the string '%PDF' exactly when the first four bytes are these. -/
def pdfMagic : List Nat := [37, 80, 68, 70]

/-- Model of `validatePDF`: signature check, then minimum-size check, then a
single-page parse attempt, modelled by the oracle `parse` for the external
`pdf-parse` call (its throw is the `Except.error` case). -/
def validatePDF (parse : List Nat → Except String Unit) (buffer : List Nat) :
    PDFValidation :=
  if buffer.take 4 ≠ pdfMagic then
    { isValid := false, error := some "Invalid PDF signature" }
  else if buffer.length < 1024 then
    { isValid := false, error := some "File too small to be a valid PDF" }
  else
    match parse buffer with
    | .ok _ => { isValid := true, error := none }
    | .error m => { isValid := false, error := some ("PDF validation failed: " ++ m) }

lemma clampScore_range (v : Option ℚ) (q : ℚ) (h : clampScore v = some q) :
    0 ≤ q ∧ q ≤ 100 := by
  cases v with
  | none => simp [clampScore] at h
  | some x =>
      simp only [clampScore, Option.map_some', Option.some.injEq] at h
      subst h
      refine ⟨le_min (by norm_num) (le_max_left 0 x), min_le_left 100 _⟩

lemma floorZero_nonneg (v : Option ℚ) (q : ℚ) (h : floorZero v = some q) : 0 ≤ q := by
  cases v with
  | none => simp [floorZero] at h
  | some x =>
      simp only [floorZero, Option.map_some', Option.some.injEq] at h
      subst h
      exact le_max_left 0 x

lemma listClip_length (v : JSVal) (n : Nat) : (listClip v n).length ≤ n := by
  cases v <;> simp [listClip, List.length_take]

lemma jsOr_default_summary (v : JSVal) (s : String)
    (h : jsOr v (.str "Resume analyzed successfully.") = .str s) : s ≠ "" := by
  by_cases ht : truthy v = true
  · rw [jsOr, if_pos ht] at h
    subst h
    simpa [truthy, decide_eq_true_eq] using ht
  · rw [jsOr, if_neg ht] at h
    cases h
    decide

/-- Range facts asserted by claim C1, as a predicate over results. -/
def RangeInvariants (r : ScoringResult) : Prop :=
  (∀ q, r.overallScore = some q → 0 ≤ q ∧ q ≤ 100) ∧
  (∀ q, r.breakdownSkills = some q → 0 ≤ q ∧ q ≤ 100) ∧
  (∀ q, r.breakdownExperience = some q → 0 ≤ q ∧ q ≤ 100) ∧
  (∀ q, r.breakdownEducation = some q → 0 ≤ q ∧ q ≤ 100) ∧
  (∀ q, r.breakdownRelevance = some q → 0 ≤ q ∧ q ≤ 100) ∧
  (∀ q, r.fitScore = some q → 0 ≤ q ∧ q ≤ 100) ∧
  (∀ q, r.experienceYears = some q → 0 ≤ q) ∧
  r.strengths.length ≤ 10 ∧
  r.weaknesses.length ≤ 10 ∧
  r.keywordMatches.length ≤ 20 ∧
  r.recommendations.length ≤ 5 ∧
  r.redFlags.length ≤ 5 ∧
  (∀ s, r.summary = .str s → s ≠ "")

lemma rangeInvariants_fallback (b : BasicInfo) : RangeInvariants (fallbackResult b) := by
  refine ⟨?_, ?_, ?_, ?_, ?_, ?_, ?_, ?_, ?_, ?_, ?_, ?_, ?_⟩
  case _ => intro q h; cases h; norm_num
  case _ => intro q h; cases h; norm_num
  case _ => intro q h; cases h; norm_num
  case _ => intro q h; cases h; norm_num
  case _ => intro q h; cases h; norm_num
  case _ => intro q h; cases h; norm_num
  case _ => intro q h; cases h; norm_num
  case _ => simp [fallbackResult]
  case _ => simp [fallbackResult]
  case _ => simp [fallbackResult]
  case _ => simp [fallbackResult]
  case _ => simp [fallbackResult]
  case _ => intro s h; cases h; decide

lemma rangeInvariants_coerceFields (a : JSVal) (b : BasicInfo) :
    RangeInvariants (coerceFields a b) := by
  refine ⟨fun q h => clampScore_range _ q h,
    fun q h => clampScore_range _ q h,
    fun q h => clampScore_range _ q h,
    fun q h => clampScore_range _ q h,
    fun q h => clampScore_range _ q h,
    fun q h => clampScore_range _ q h,
    fun q h => floorZero_nonneg _ q h,
    listClip_length _ 10, listClip_length _ 10, listClip_length _ 20,
    listClip_length _ 5, listClip_length _ 5,
    fun s h => jsOr_default_summary _ s h⟩

/-- C1 (amended): for every raw model response and every basicInfo, the
coercer's output is fully populated and satisfies the range invariants to the
extent the clamps guarantee them: every numeric field that is an actual
number (not NaN) lies in its declared range, `experienceYears` is
nonnegative when not NaN, the list caps 10/10/20/5/5 always hold, and
`summary`, whenever it is a string, is non-empty.  (The unamended claim
fails because a truthy non-numeric raw score coerces to NaN, and a truthy
non-string raw `summary` is stored as is; see the counterexample.) -/
theorem c1_range_invariants (a : JSVal) (b : BasicInfo) :
    RangeInvariants (processAIResponse a b) := by
  cases a with
  | null => exact rangeInvariants_fallback b
  | undefinedVal => exact rangeInvariants_fallback b
  | bool x => exact rangeInvariants_coerceFields _ b
  | num q => exact rangeInvariants_coerceFields _ b
  | nan => exact rangeInvariants_coerceFields _ b
  | str s => exact rangeInvariants_coerceFields _ b
  | arr xs => exact rangeInvariants_coerceFields _ b
  | obj fs => exact rangeInvariants_coerceFields _ b

/-- Witness for C1: instantiating the amended theorem at a concrete input
discharges its hypotheses. -/
theorem c1_range_invariants_witness : 0 ≤ (50 : ℚ) ∧ (50 : ℚ) ≤ 100 :=
  (c1_range_invariants JSVal.null ⟨none, none, none, none⟩).1 50 rfl

/-- C1 counterexample: with the truthy non-numeric raw value
`overallScore: "abc"`, the produced `overallScore` is NaN
(`Math.max(0, "abc")` is NaN), hence lies in [0,100] for no rational. -/
theorem c1_counterexample :
    ¬ ∃ q : ℚ,
      (processAIResponse (.obj [("overallScore", .str "abc")])
          ⟨none, none, none, none⟩).overallScore = some q ∧ 0 ≤ q ∧ q ≤ 100 := by
  rintro ⟨q, hq, -⟩
  have h : (processAIResponse (.obj [("overallScore", .str "abc")])
      ⟨none, none, none, none⟩).overallScore = none := rfl
  rw [h] at hq
  exact Option.noConfusion hq

/-- C6: `candidateName` in the coercer's output always equals
`basicInfo.candidateName` — in the normal path and in the fallback path —
so the raw model response (including any candidateName-like field of its
own) never influences it: two arbitrary raw responses yield the same
`candidateName`. -/
theorem c6_candidateName_from_basicInfo (b : BasicInfo) (a1 a2 : JSVal) :
    (processAIResponse a1 b).candidateName = b.candidateName ∧
    (processAIResponse a1 b).candidateName = (processAIResponse a2 b).candidateName := by
  have h : ∀ a : JSVal, (processAIResponse a b).candidateName = b.candidateName := by
    intro a
    cases a <;> rfl
  exact ⟨h a1, (h a1).trans (h a2).symm⟩

/-- C3 (amended): the documented fallback shape is returned exactly for
`null`/`undefined` raw input (where property access throws and the catch
fires); every other primitive non-object input does not raise either, but
flows through the normal path and yields the zero/default-valued result
(`overallScore = 0`, breakdown all 0, empty lists, default summary,
`fitScore = 0`, `keywordsMatched = 0`), not the 50-valued fallback. -/
theorem c3_fallback_only_for_nullish (b : BasicInfo) :
    processAIResponse .null b = fallbackResult b ∧
    processAIResponse .undefinedVal b = fallbackResult b ∧
    (∀ s : String, processAIResponse (.str s) b = primDefaultResult b) ∧
    (∀ q : ℚ, processAIResponse (.num q) b = primDefaultResult b) ∧
    (∀ x : Bool, processAIResponse (.bool x) b = primDefaultResult b) ∧
    processAIResponse .nan b = primDefaultResult b :=
  ⟨rfl, rfl, fun _ => rfl, fun _ => rfl, fun _ => rfl, rfl⟩

/-- C3 counterexample: on the garbage string input "garbage" the coercer
returns `overallScore = 0` (the zero/default path), not the documented
fallback value 50. -/
theorem c3_counterexample :
    (processAIResponse (.str "garbage") ⟨none, none, none, none⟩).overallScore = some 0 ∧
    ((0 : ℚ) ≠ 50) :=
  ⟨rfl, by norm_num⟩

/-- C2 (amended): `keywordsMatched` is computed from the RAW
`keywordMatches` value, before truncation: whenever the raw response's
`keywordMatches` field is an array `xs`, the output's `keywordsMatched` is
the length of `xs` while the output's `keywordMatches` list is `xs`
truncated to 20 entries.  The two agree only when `xs` has at most 20
entries; the unamended claim fails on a 21-entry list (see the
counterexample). -/
theorem c2_keywordsMatched_untruncated (b : BasicInfo)
    (fs : List (String × JSVal)) (xs : List JSVal)
    (h : lookupField fs "keywordMatches" = .arr xs) :
    (processAIResponse (.obj fs) b).keywordsMatched = .num (xs.length : ℚ) ∧
    (processAIResponse (.obj fs) b).keywordMatches = xs.take 20 := by
  constructor
  · show jsOr (optChain (fieldOf (.obj fs) "keywordMatches") "length") (.num 0) = _
    have hf : fieldOf (.obj fs) "keywordMatches" = .arr xs := h
    rw [hf]
    show jsOr (.num (xs.length : ℚ)) (.num 0) = _
    rcases eq_or_ne ((xs.length : ℚ)) 0 with h0 | h0
    · rw [jsOr, if_neg (by simp [truthy, h0]), h0]
    · rw [jsOr, if_pos (by simp [truthy, h0])]
  · show listClip (fieldOf (.obj fs) "keywordMatches") 20 = _
    have hf : fieldOf (.obj fs) "keywordMatches" = .arr xs := h
    rw [hf]
    rfl

/-- Witness for C2's amended theorem at a concrete one-element array. -/
theorem c2_keywordsMatched_untruncated_witness :
    (processAIResponse (.obj [("keywordMatches", .arr [.str "a"])])
        ⟨none, none, none, none⟩).keywordsMatched
      = .num (([JSVal.str "a"] : List JSVal).length : ℚ) ∧
    (processAIResponse (.obj [("keywordMatches", .arr [.str "a"])])
        ⟨none, none, none, none⟩).keywordMatches
      = ([JSVal.str "a"] : List JSVal).take 20 :=
  c2_keywordsMatched_untruncated ⟨none, none, none, none⟩
    [("keywordMatches", .arr [.str "a"])] [.str "a"] rfl

/-- C2 counterexample: a raw `keywordMatches` array with 21 entries yields
an output list truncated to 20 entries but `keywordsMatched = 21`, so the
claimed equality with the truncated length fails. -/
theorem c2_counterexample :
    (processAIResponse
        (.obj [("keywordMatches", .arr (List.replicate 21 (.str "k")))])
        ⟨none, none, none, none⟩).keywordsMatched = .num 21 ∧
    ((processAIResponse
        (.obj [("keywordMatches", .arr (List.replicate 21 (.str "k")))])
        ⟨none, none, none, none⟩).keywordMatches).length = 20 ∧
    ((21 : ℚ) ≠ 20) := by
  refine ⟨?_, by decide, by norm_num⟩
  show jsOr (.num ((List.replicate 21 (JSVal.str "k")).length : ℚ)) (.num 0) = .num 21
  norm_num [jsOr, truthy]

/-- C8 (amended): `fitScore` is taken from the raw `fitScore` field when
that field is truthy, and falls back to `overallScore` whenever it is falsy
— which covers absence (`undefined`) but also the present values `0`,
`NaN`, `false`, `null` and the empty string.  The unamended claim ("only
when absent", "including the value 0") fails at a present `fitScore: 0`;
see the counterexample. -/
theorem c8_fitScore_truthiness (b : BasicInfo) (fs : List (String × JSVal)) :
    (truthy (lookupField fs "fitScore") = true →
      (processAIResponse (.obj fs) b).fitScore
        = clampScore (toNumber (lookupField fs "fitScore"))) ∧
    (truthy (lookupField fs "fitScore") = false →
      (processAIResponse (.obj fs) b).fitScore
        = clampScore (toNumber (jsOr (lookupField fs "overallScore") (.num 0)))) := by
  constructor
  · intro ht
    show clampScore (toNumber (jsOr
        (jsOr (lookupField fs "fitScore") (fieldOf (.obj fs) "overallScore"))
        (.num 0))) = _
    have h1 : jsOr (lookupField fs "fitScore") (fieldOf (.obj fs) "overallScore")
        = lookupField fs "fitScore" := by simp [jsOr, ht]
    rw [h1]
    simp [jsOr, ht]
  · intro ht
    show clampScore (toNumber (jsOr
        (jsOr (lookupField fs "fitScore") (fieldOf (.obj fs) "overallScore"))
        (.num 0))) = _
    have h1 : jsOr (lookupField fs "fitScore") (fieldOf (.obj fs) "overallScore")
        = fieldOf (.obj fs) "overallScore" := by simp [jsOr, ht]
    rw [h1]
    rfl

/-- Witness for C8's amended theorem: a present falsy `fitScore: 0` next to
`overallScore: 85` makes the clamp run on the `overallScore` value. -/
theorem c8_fitScore_truthiness_witness :
    (processAIResponse (.obj [("fitScore", .num 0), ("overallScore", .num 85)])
        ⟨none, none, none, none⟩).fitScore
      = clampScore (toNumber (jsOr
          (lookupField [("fitScore", JSVal.num 0), ("overallScore", JSVal.num 85)]
            "overallScore") (.num 0))) :=
  (c8_fitScore_truthiness ⟨none, none, none, none⟩
    [("fitScore", .num 0), ("overallScore", .num 85)]).2 (by decide)

/-- C8 counterexample: with `fitScore` present and equal to 0, the output
`fitScore` is 85 (the clamped `overallScore`), not the clamp of the present
value 0 that the claim requires. -/
theorem c8_counterexample :
    (processAIResponse (.obj [("fitScore", .num 0), ("overallScore", .num 85)])
        ⟨none, none, none, none⟩).fitScore = some 85 ∧
    clampScore (toNumber (JSVal.num 0)) = some 0 ∧
    ((85 : ℚ) ≠ 0) :=
  ⟨by decide, by decide, by norm_num⟩

/-- Example documents for the 3-document batch scenario of claim C5. -/
def docEx (n : String) : ResumeDoc :=
  { id := n, extractedText := "text", basicInfo := ⟨none, none, none, none⟩ }

/-- Example scoring oracle for claim C5: the external call fails exactly on
the document with id "2". -/
def scoreEx : ResumeDoc → Except String ScoringResult :=
  fun r => if r.id = "2" then .error "network error" else .ok (fallbackResult r.basicInfo)

/-- C5: the batch loop returns exactly one outcome per input document, in
input order: the i-th outcome is the outcome of scoring the i-th document,
a failure is recorded under that document's identifier with its error
message and does not stop later documents; in particular the concrete
3-document batch whose 2nd external call fails yields
[success, failure with message, success]. -/
theorem c5_batch_outcomes :
    (∀ (score : ResumeDoc → Except String ScoringResult) (docs : List ResumeDoc),
      (batchScoreResumes score docs).length = docs.length ∧
      ∀ i : Nat, (batchScoreResumes score docs)[i]? = (docs[i]?).map (outcomeFor score)) ∧
    (∀ score d m, score d = Except.error m → outcomeFor score d = .failed d.id m) ∧
    (∀ score d r, score d = Except.ok r → outcomeFor score d = .ok d.id r) ∧
    batchScoreResumes scoreEx [docEx "1", docEx "2", docEx "3"]
      = [.ok "1" (fallbackResult ⟨none, none, none, none⟩),
         .failed "2" "network error",
         .ok "3" (fallbackResult ⟨none, none, none, none⟩)] := by
  refine ⟨?_, ?_, ?_, rfl⟩
  · intro score docs
    constructor
    · induction docs with
      | nil => rfl
      | cons r rest ih => simp [batchScoreResumes, ih]
    · intro i
      induction docs generalizing i with
      | nil => simp [batchScoreResumes]
      | cons r rest ih =>
          cases i with
          | zero => simp [batchScoreResumes]
          | succ j => simpa [batchScoreResumes] using ih j
  · intro score d m h
    rw [outcomeFor, h]
  · intro score d r h
    rw [outcomeFor, h]

/-- Witness for C5: the theorem applied to the 3-document example shows the
second item is the failed outcome carrying id "2" and the error message. -/
theorem c5_batch_outcomes_witness :
    (batchScoreResumes scoreEx [docEx "1", docEx "2", docEx "3"])[1]?
      = ([docEx "1", docEx "2", docEx "3"][1]?).map (outcomeFor scoreEx) ∧
    outcomeFor scoreEx (docEx "2") = .failed "2" "network error" :=
  ⟨(c5_batch_outcomes.1 scoreEx [docEx "1", docEx "2", docEx "3"]).2 1,
   c5_batch_outcomes.2.1 scoreEx (docEx "2") "network error" rfl⟩

/-- C9: `validatePDF` checks the 4-byte signature before the size check —
a buffer whose first four bytes are not "%PDF" is rejected with
'Invalid PDF signature' regardless of its length, and a "%PDF"-prefixed
buffer shorter than 1024 bytes is rejected as too small without the parse
oracle being consulted (the result is identical for every parse oracle). -/
theorem c9_signature_before_size (parse parse2 : List Nat → Except String Unit)
    (buffer : List Nat) :
    (buffer.take 4 ≠ pdfMagic →
      validatePDF parse buffer = { isValid := false, error := some "Invalid PDF signature" }) ∧
    (buffer.take 4 = pdfMagic → buffer.length < 1024 →
      validatePDF parse buffer
          = { isValid := false, error := some "File too small to be a valid PDF" } ∧
      validatePDF parse buffer = validatePDF parse2 buffer) := by
  constructor
  · intro h
    rw [validatePDF, if_pos h]
  · intro h hl
    constructor
    · rw [validatePDF, if_neg (by simp [h]), if_pos hl]
    · rw [validatePDF, if_neg (by simp [h]), if_pos hl,
        validatePDF, if_neg (by simp [h]), if_pos hl]

/-- Witness for C9: a long non-PDF buffer is rejected for its signature, and
the four magic bytes alone are rejected as too small. -/
theorem c9_signature_before_size_witness :
    validatePDF (fun _ => .ok ()) (List.replicate 2000 0)
      = { isValid := false, error := some "Invalid PDF signature" } ∧
    validatePDF (fun _ => .error "boom") pdfMagic
      = { isValid := false, error := some "File too small to be a valid PDF" } :=
  ⟨(c9_signature_before_size (fun _ => .ok ()) (fun _ => .ok ())
      (List.replicate 2000 0)).1 (by decide),
   ((c9_signature_before_size (fun _ => .error "boom") (fun _ => .ok ())
      pdfMagic).2 (by decide) (by decide)).1⟩

/-- Form feed, U+000C (the source's `\f`). -/
def formFeedChar : Char := Char.ofNat 12

/-- Non-breaking space, U+00A0. -/
def nbspChar : Char := Char.ofNat 160

/-- Bullet, U+2022 (the source replaces it by itself). -/
def bulletChar : Char := Char.ofNat 8226

/-- En dash, U+2013. -/
def enDashChar : Char := Char.ofNat 8211

/-- Em dash, U+2014. -/
def emDashChar : Char := Char.ofNat 8212

/-- Left curly double quote, U+201C. -/
def ldquoChar : Char := Char.ofNat 8220

/-- Right curly double quote, U+201D. -/
def rdquoChar : Char := Char.ofNat 8221

/-- Left curly single quote, U+2018. -/
def lsquoChar : Char := Char.ofNat 8216

/-- Right curly single quote, U+2019. -/
def rsquoChar : Char := Char.ofNat 8217

/-- Horizontal ellipsis, U+2026. -/
def hellipChar : Char := Char.ofNat 8230

/-- Straight apostrophe, U+0027. -/
def apostropheChar : Char := Char.ofNat 39

/-- Replacement `replace(/\r\n/g, '\n')`: each CRLF pair becomes one LF,
scanning left to right without overlap. -/
def stripCRLF : List Char → List Char
  | [] => []
  | '\r' :: '\n' :: rest => '\n' :: stripCRLF rest
  | c :: rest => c :: stripCRLF rest

/-- Flush one maximal run of `p`-characters: if it has at least `k`
characters it is replaced by `repl`, else kept.  Models a global
`X{k,}` replacement, whose matches are exactly the maximal runs of length
at least `k`. -/
def flushRun (k : Nat) (repl run : List Char) : List Char :=
  if k ≤ run.length then repl else run

/-- Worker for `collapseRuns`; `acc` holds the current run reversed. -/
def runGo (p : Char → Bool) (k : Nat) (repl : List Char) (acc : List Char) :
    List Char → List Char
  | [] => flushRun k repl acc.reverse
  | c :: rest =>
      if p c then runGo p k repl (c :: acc) rest
      else flushRun k repl acc.reverse ++ c :: runGo p k repl [] rest

/-- Global replacement of every maximal run of at least `k` `p`-characters
by `repl`. -/
def collapseRuns (p : Char → Bool) (k : Nat) (repl : List Char) (l : List Char) :
    List Char :=
  runGo p k repl [] l

/-- Largest number of whitespace characters the trailing `\s*` of a
`/^...\s*$/m` pattern can consume from `r` so that `$` then holds (end of
string, or just before a line feed); `none` when no prefix works. -/
def dollarLen (r : List Char) : Option Nat :=
  let m := (r.takeWhile isSpaceJS).length
  ((List.range (m + 1)).reverse).find?
    (fun p => decide (p = r.length) || decide (r.get? p = some '\n'))

/-- Match attempt for `/^\s*Page \d+ of \d+\s*$/gm` at a line-start suffix
`s` (the leading `\s*` may span preceding blank lines); returns the length
of the match.  All quantifier choices are forced: `\s*` cannot end before a
non-space, `\d+` is a maximal digit run. -/
def tryPageLine (s : List Char) : Option Nat :=
  let w1 := (s.takeWhile isSpaceJS).length
  let r1 := s.drop w1
  if r1.take 5 = "Page ".toList then
    let r2 := r1.drop 5
    let d1 := (r2.takeWhile Char.isDigit).length
    if d1 = 0 then none
    else
      let r3 := r2.drop d1
      if r3.take 4 = " of ".toList then
        let r4 := r3.drop 4
        let d2 := (r4.takeWhile Char.isDigit).length
        if d2 = 0 then none
        else (dollarLen (r4.drop d2)).map (fun p => w1 + 5 + d1 + 4 + d2 + p)
      else none
  else none

/-- Match attempt for `/^\s*\d+\s*$/gm` (standalone-number line) at a
line-start suffix. -/
def tryBareNumberLine (s : List Char) : Option Nat :=
  let w1 := (s.takeWhile isSpaceJS).length
  let r1 := s.drop w1
  let d := (r1.takeWhile Char.isDigit).length
  if d = 0 then none
  else (dollarLen (r1.drop d)).map (fun p => w1 + d + p)

/-- Worker for `gmRemove`: walks the string, attempting the line-anchored
match `tm` at every line start (`^` of the `m` flag), deleting each match
and continuing after it; `fuel` bounds the recursion (initially
length + 1, enough since every step consumes a character). -/
def gmGo (tm : List Char → Option Nat) : Nat → Bool → List Char → List Char
  | 0, _, s => s
  | fuel + 1, atStart, s =>
      match s with
      | [] => []
      | c :: rest =>
          match (if atStart then tm s else none) with
          | some (n + 1) =>
              gmGo tm fuel (decide (s.get? n = some '\n')) (s.drop (n + 1))
          | _ => c :: gmGo tm fuel (decide (c = '\n')) rest

/-- Global multiline removal `replace(/^.../gm, '')` for the line-anchored
matcher `tm`. -/
def gmRemove (tm : List Char → Option Nat) (l : List Char) : List Char :=
  gmGo tm (l.length + 1) true l

/-- Replacement `replace(/Marker[\s\S]*$/gm, '')`: everything from the first
occurrence of the marker to the end of the string is removed (the greedy
`[\s\S]*` always reaches the absolute end, where `$` holds). -/
def truncateFrom (marker l : List Char) : List Char :=
  match (List.range (l.length + 1)).find?
      (fun i => decide ((l.drop i).take marker.length = marker)) with
  | some i => l.take i
  | none => l

/-- JavaScript `String.prototype.trim`. -/
def trimJS (l : List Char) : List Char :=
  ((l.dropWhile isSpaceJS).reverse.dropWhile isSpaceJS).reverse

/-- Flush for the final `/\n\s*\n\s*\n/g` collapse: inside one maximal
whitespace run the pattern matches from the first to the last line feed
exactly when the run holds at least three of them, and the match is
replaced by two line feeds. -/
def flushNLRun (run : List Char) : List Char :=
  if 3 ≤ run.count '\n' then
    run.takeWhile (fun c => c ≠ '\n') ++ '\n' :: '\n' ::
      (run.reverse.takeWhile (fun c => c ≠ '\n')).reverse
  else run

/-- Worker for `finalNewlineCollapse`; `acc` holds the current whitespace
run reversed. -/
def nlGo (acc : List Char) : List Char → List Char
  | [] => flushNLRun acc.reverse
  | c :: rest =>
      if isSpaceJS c then nlGo (c :: acc) rest
      else flushNLRun acc.reverse ++ c :: nlGo [] rest

/-- Final cleanup replacement `replace(/\n\s*\n\s*\n/g, '\n\n')`. -/
def finalNewlineCollapse (l : List Char) : List Char :=
  nlGo [] l

/-- The `sanitizeText` replacement pipeline of `utils/sanitizeText.js`, in
source order, on the character list of a string. -/
def sanitizePipeline (l : List Char) : List Char :=
  let c1 := stripCRLF l
  let c2 := c1.map (fun c => if c = '\r' then '\n' else c)
  let c3 := collapseRuns (fun c => c = '\n') 3 ['\n', '\n'] c2
  let c4 := collapseRuns (fun c => c = ' ' || c = '\t') 2 [' '] c3
  let c5 := c4.filter (fun c => c ≠ formFeedChar)
  let c6 := c5.map (fun c => if c = nbspChar then ' ' else c)
  let c7 := c6.map (fun c => if c = bulletChar then bulletChar else c)
  let c8 := c7.map (fun c => if c = enDashChar then '-' else c)
  let c9 := c8.flatMap (fun c => if c = emDashChar then ['-', '-'] else [c])
  let c10 := c9.map (fun c => if c = ldquoChar || c = rdquoChar then '"' else c)
  let c11 := c10.map (fun c => if c = lsquoChar || c = rsquoChar then apostropheChar else c)
  let c12 := c11.flatMap (fun c => if c = hellipChar then ['.', '.', '.'] else [c])
  let c13 := collapseRuns (fun c => c = '.') 4 ['.', '.', '.'] c12
  let c14 := collapseRuns (fun c => c = '-') 3 ['-', '-'] c13
  let c15 := collapseRuns (fun c => c = '_') 3 ['_', '_'] c14
  let c16 := gmRemove tryPageLine c15
  let c17 := gmRemove tryBareNumberLine c16
  let c18 := truncateFrom "Confidential and Proprietary".toList c17
  let c19 := truncateFrom "This email and any attachments".toList c18
  let c20 := trimJS c19
  finalNewlineCollapse c20

/-- The `sanitizeText` entry point: the guard
`if (!text || typeof text !== 'string') return ''` sends the empty string
and every non-string value to the empty string; other strings run through
the replacement pipeline. -/
def sanitizeText (v : JSVal) : String :=
  match v with
  | .str s => if s = "" then "" else String.mk (sanitizePipeline s.toList)
  | _ => ""

/-- C4 counterexample: `sanitizeText` is not idempotent.  Two consecutive
non-breaking spaces are turned into two ordinary spaces by the NBSP
replacement, which runs after the `[ \t]{2,}` collapse — so the double
space survives the first pass and is collapsed only by a second one. -/
theorem c4_counterexample :
    sanitizeText (.str "a\u00A0\u00A0b") = "a  b" ∧
    sanitizeText (.str (sanitizeText (.str "a\u00A0\u00A0b"))) = "a b" ∧
    sanitizeText (.str (sanitizeText (.str "a\u00A0\u00A0b")))
      ≠ sanitizeText (.str "a\u00A0\u00A0b") :=
  ⟨by decide, by decide, by decide⟩

/-- C4 (amended): `sanitizeText` never raises and returns the empty string
on empty or non-string input, and it is idempotent on the inputs the claim
singles out — the empty string and strings consisting only of control
characters (verified here on representative such strings) — but not on all
strings (see the counterexample). -/
theorem c4_sanitize_partial_idempotence :
    sanitizeText (.str "") = "" ∧
    sanitizeText .null = "" ∧
    sanitizeText .undefinedVal = "" ∧
    sanitizeText (.num 5) = "" ∧
    sanitizeText (.arr []) = "" ∧
    sanitizeText (.str (sanitizeText (.str "\u000C\u000C")))
      = sanitizeText (.str "\u000C\u000C") ∧
    sanitizeText (.str (sanitizeText (.str "\r\r\r\r\u000B\t\t")))
      = sanitizeText (.str "\r\r\r\r\u000B\t\t") ∧
    sanitizeText (.str (sanitizeText (.str "\u0001\n\n\n\n\u0001")))
      = sanitizeText (.str "\u0001\n\n\n\n\u0001") :=
  ⟨rfl, rfl, rfl, rfl, rfl, by decide, by decide, by decide⟩

/-- Word character of JavaScript regex `\w` (and the classes `\b` tests). -/
def isWordChar (c : Char) : Bool := c.isAlphanum || c == '_'

/-- Wordness of the character at index `i`, out-of-range counting as
non-word. -/
def wordAt (t : List Char) (i : Nat) : Bool :=
  match t.get? i with
  | some c => isWordChar c
  | none => false

/-- JavaScript `\b` at position `i`: the wordness changes between the
previous character (none before index 0) and the current one. -/
def boundaryAt (t : List Char) (i : Nat) : Bool :=
  wordAt t i != (if i = 0 then false else wordAt t (i - 1))

/-- Case-insensitive occurrence of `pat` in `t` starting at index `i`. -/
def ciOccursAt (pat t : List Char) (i : Nat) : Bool :=
  decide (((t.drop i).take pat.length).map Char.toLower = pat.map Char.toLower)

/-- Test of the escaped-vocabulary regex `/\bterm\b/gi` built by
`extractSkills`: some position carries the term between two `\b`
boundaries, case-insensitively. -/
def wordBoundedHit (pat t : List Char) : Bool :=
  (List.range (t.length + 1)).any
    (fun i => boundaryAt t i && ciOccursAt pat t i && boundaryAt t (i + pat.length))

/-- The fixed skill vocabulary of `extractSkills`, in source order. -/
def commonSkills : List String :=
  ["javascript", "python", "java", "c++", "c#", "php", "ruby", "go", "rust", "swift",
   "kotlin", "typescript", "scala", "r", "matlab", "sql", "html", "css",
   "react", "angular", "vue", "node.js", "express", "django", "flask", "spring",
   "laravel", "rails", "asp.net", "jquery", "bootstrap", "tailwind",
   "mysql", "postgresql", "mongodb", "redis", "elasticsearch", "oracle", "sqlite",
   "aws", "azure", "gcp", "docker", "kubernetes", "jenkins", "git", "ci/cd",
   "linux", "windows", "macos", "nginx", "apache", "microservices", "api",
   "restful", "graphql", "websockets", "tcp/ip",
   "leadership", "communication", "teamwork", "problem solving", "analytical",
   "project management", "agile", "scrum", "kanban"]

/-- Local-part character class `[A-Za-z0-9._%+-]` of the email regex. -/
def isLocalChar (c : Char) : Bool :=
  c.isAlphanum || c == '.' || c == '_' || c == '%' || c == '+' || c == '-'

/-- Domain character class `[A-Za-z0-9.-]` of the email regex. -/
def isDomainChar (c : Char) : Bool := c.isAlphanum || c == '.' || c == '-'

/-- Top-level-domain character class `[A-Z|a-z]` of the email regex (the
source literally includes the pipe in the class). -/
def isTldChar (c : Char) : Bool := c.isAlpha || c == '|'

/-- Greedy-with-backtracking match of the email regex tail `{2,}\b` from
index `k`: the longest run of TLD characters of length at least 2 after
which a `\b` holds. -/
def tldTry (t : List Char) (k : Nat) : Option Nat :=
  let tmax := ((t.drop k).takeWhile isTldChar).length
  ((List.range (tmax + 1)).reverse).find?
    (fun tl => decide (2 ≤ tl) && boundaryAt t (k + tl))

/-- Greedy-with-backtracking match of `[A-Za-z0-9.-]+\.[A-Z|a-z]{2,}\b`
from index `j` (just after the `@`): the domain run is shortened from its
maximum until a literal dot followed by a valid TLD is found; returns the
total matched length from `j`. -/
def domainTry (t : List Char) (j : Nat) : Option Nat :=
  let dmax := ((t.drop j).takeWhile isDomainChar).length
  ((List.range (dmax + 1)).reverse).findSome?
    (fun d =>
      if 1 ≤ d ∧ t.get? (j + d) = some '.' then
        (tldTry t (j + d + 1)).map (fun tl => d + 1 + tl)
      else none)

/-- Attempt of the full email regex
`/\b[A-Za-z0-9._%+-]+@[A-Za-z0-9.-]+\.[A-Z|a-z]{2,}\b/g` at index `i`;
returns the match length.  The local-part `+` cannot backtrack usefully
since `@` is outside its class. -/
def matchEmailAt (t : List Char) (i : Nat) : Option Nat :=
  if boundaryAt t i then
    let lmax := ((t.drop i).takeWhile isLocalChar).length
    if 1 ≤ lmax ∧ t.get? (i + lmax) = some '@' then
      (domainTry t (i + lmax + 1)).map (fun dn => lmax + 1 + dn)
    else none
  else none

/-- Global scan of the email regex: leftmost matches, each scan resuming
after the previous match; returns (start, length) pairs.  `fuel` bounds the
recursion (initially length + 1). -/
def emailGo (t : List Char) : Nat → Nat → List (Nat × Nat)
  | 0, _ => []
  | fuel + 1, i =>
      if i < t.length then
        match matchEmailAt t i with
        | some (n + 1) => (i, n + 1) :: emailGo t fuel (i + (n + 1))
        | _ => emailGo t fuel (i + 1)
      else []

/-- All (start, length) pairs of email matches in `t`. -/
def emailSlices (t : List Char) : List (Nat × Nat) :=
  emailGo t (t.length + 1) 0

/-- De-duplication keeping first occurrences, as `[...new Set(xs)]` does;
`seen` accumulates the values already emitted. -/
def dedupGo (seen : List String) : List String → List String
  | [] => []
  | x :: rest =>
      if x ∈ seen then dedupGo seen rest else x :: dedupGo (x :: seen) rest

/-- ASCII-wise model of `String.prototype.toLowerCase`. -/
def lowerStr (s : String) : String := String.mk (s.toList.map Char.toLower)

/-- The `extractSkills` heuristic of `services/pdfParser.js`: vocabulary
terms whole-word-matched case-insensitively against the lowercased text
(pushed in their vocabulary spelling), then email matches from the original
text appended verbatim, then duplicates removed. -/
def extractSkills (text : String) : List String :=
  let textLower := (lowerStr text).toList
  let hits := commonSkills.filter (fun sk => wordBoundedHit sk.toList textLower)
  let emails := (emailSlices text.toList).map
    (fun pr => String.mk ((text.toList.drop pr.1).take pr.2))
  dedupGo [] (hits ++ emails)

lemma dedupGo_avoids_seen (l : List String) :
    ∀ (seen : List String), ∀ x ∈ dedupGo seen l, x ∉ seen := by
  induction l with
  | nil => intro seen x hx; cases hx
  | cons a rest ih =>
      intro seen x hx
      rw [dedupGo] at hx
      by_cases ha : a ∈ seen
      · rw [if_pos ha] at hx
        exact ih seen x hx
      · rw [if_neg ha] at hx
        rcases List.mem_cons.1 hx with rfl | hx2
        · exact ha
        · intro hxs
          exact ih (a :: seen) x hx2 (List.mem_cons_of_mem a hxs)

lemma dedupGo_nodup (l : List String) :
    ∀ (seen : List String), (dedupGo seen l).Nodup := by
  induction l with
  | nil => intro seen; exact List.nodup_nil
  | cons a rest ih =>
      intro seen
      rw [dedupGo]
      by_cases ha : a ∈ seen
      · rw [if_pos ha]; exact ih seen
      · rw [if_neg ha]
        refine List.nodup_cons.2 ⟨?_, ih (a :: seen)⟩
        intro hmem
        exact dedupGo_avoids_seen rest (a :: seen) a hmem (List.mem_cons_self a seen)

lemma dedupGo_subset (l : List String) :
    ∀ (seen : List String), ∀ x ∈ dedupGo seen l, x ∈ l := by
  induction l with
  | nil => intro seen x hx; cases hx
  | cons a rest ih =>
      intro seen x hx
      rw [dedupGo] at hx
      by_cases ha : a ∈ seen
      · rw [if_pos ha] at hx
        exact List.mem_cons_of_mem a (ih seen x hx)
      · rw [if_neg ha] at hx
        rcases List.mem_cons.1 hx with rfl | hx2
        · exact List.mem_cons_self x rest
        · exact List.mem_cons_of_mem a (ih (a :: seen) x hx2)

/-- C10: every entry of `extractSkills` is either a vocabulary term exactly
as spelled in the fixed lowercase vocabulary, or an email address appearing
verbatim (as a contiguous substring) in the original text; the result is
duplicate-free; matching is case-insensitive (a text containing
"JavaScript" yields the entry "javascript"), while a matched email keeps
the casing it has in the text; and `extractSkills` is a total function
(never raises). -/
theorem c10_skills_vocabulary (t : String) :
    (extractSkills t).Nodup ∧
    (∀ e ∈ extractSkills t,
      e ∈ commonSkills ∨ ∃ l r, l ++ e.toList ++ r = t.toList) ∧
    extractSkills "JavaScript developer" = ["javascript"] ∧
    extractSkills "Contact: jane.doe@Example.COM or call" = ["jane.doe@Example.COM"] := by
  refine ⟨dedupGo_nodup _ [], ?_, by decide, by decide⟩
  intro e he
  have hsub : e ∈ (commonSkills.filter
        (fun sk => wordBoundedHit sk.toList ((lowerStr t).toList)))
      ++ ((emailSlices t.toList).map
        (fun pr => String.mk ((t.toList.drop pr.1).take pr.2))) :=
    dedupGo_subset _ [] e he
  rcases List.mem_append.1 hsub with hh | hh
  · exact Or.inl (List.mem_of_mem_filter hh)
  · rcases List.mem_map.1 hh with ⟨pr, -, rfl⟩
    refine Or.inr ⟨t.toList.take pr.1, (t.toList.drop pr.1).drop pr.2, ?_⟩
    have hmk : (String.mk ((t.toList.drop pr.1).take pr.2)).toList
        = (t.toList.drop pr.1).take pr.2 := rfl
    rw [hmk, List.append_assoc, List.take_append_drop, List.take_append_drop]

/-- Witness for C10: the entry "javascript" produced for the text
"JavaScript" is accounted for by the theorem's disjunction. -/
theorem c10_skills_vocabulary_witness :
    "javascript" ∈ commonSkills ∨
      ∃ l r, l ++ "javascript".toList ++ r = "JavaScript".toList :=
  (c10_skills_vocabulary "JavaScript").2.1 "javascript" (by decide)

/-- Case-insensitive literal prefix test (the `i` flag of the experience
regexes). -/
def ciLit (lit s : List Char) : Bool :=
  decide ((s.take lit.length).map Char.toLower = lit.map Char.toLower)

/-- Match attempt of `/(\d+)\+?\s*years?\s*(?:of\s*)?experience/gi` at a
suffix: maximal digit run, optional plus, whitespace, "year" with optional
"s", whitespace, then either "of" + whitespace + "experience" or plain
"experience" (the only backtracking the pattern allows is skipping the
optional group); returns the match length. -/
def tryYears1 (s : List Char) : Option Nat :=
  let d := (s.takeWhile Char.isDigit).length
  if d = 0 then none
  else
    let i2 := d + (if s.get? d = some '+' then 1 else 0)
    let i3 := i2 + ((s.drop i2).takeWhile isSpaceJS).length
    if ciLit "year".toList (s.drop i3) then
      let i4 := i3 + 4
      let i5 := i4 + (if (s.get? i4).map Char.toLower = some 's' then 1 else 0)
      let i6 := i5 + ((s.drop i5).takeWhile isSpaceJS).length
      let withOf :=
        if ciLit "of".toList (s.drop i6) then
          let i7 := i6 + 2
          let i8 := i7 + ((s.drop i7).takeWhile isSpaceJS).length
          if ciLit "experience".toList (s.drop i8) then some (i8 + 10) else none
        else none
      match withOf with
      | some n => some n
      | none => if ciLit "experience".toList (s.drop i6) then some (i6 + 10) else none
    else none

/-- Match attempt of `/experience[:\s]*(\d+)\+?\s*years?/gi` at a suffix. -/
def tryYears2 (s : List Char) : Option Nat :=
  if ciLit "experience".toList s then
    let i2 := 10 + ((s.drop 10).takeWhile (fun c => c == ':' || isSpaceJS c)).length
    let d := ((s.drop i2).takeWhile Char.isDigit).length
    if d = 0 then none
    else
      let i3 := i2 + d
      let i4 := i3 + (if s.get? i3 = some '+' then 1 else 0)
      let i5 := i4 + ((s.drop i4).takeWhile isSpaceJS).length
      if ciLit "year".toList (s.drop i5) then
        some (i5 + 4 + (if (s.get? (i5 + 4)).map Char.toLower = some 's' then 1 else 0))
      else none
  else none

/-- Match attempt of `/(\d+)\+?\s*years?\s*in/gi` at a suffix. -/
def tryYears3 (s : List Char) : Option Nat :=
  let d := (s.takeWhile Char.isDigit).length
  if d = 0 then none
  else
    let i2 := d + (if s.get? d = some '+' then 1 else 0)
    let i3 := i2 + ((s.drop i2).takeWhile isSpaceJS).length
    if ciLit "year".toList (s.drop i3) then
      let i4 := i3 + 4
      let i5 := i4 + (if (s.get? i4).map Char.toLower = some 's' then 1 else 0)
      let i6 := i5 + ((s.drop i5).takeWhile isSpaceJS).length
      if ciLit "in".toList (s.drop i6) then some (i6 + 2) else none
    else none

/-- Global scan as `text.match(pattern)` performs it: leftmost
non-overlapping matches, each scan resuming after the previous match;
returns the matched substrings.  `fuel` bounds the recursion (initially
length + 1). -/
def scanGo (tm : List Char → Option Nat) : Nat → List Char → List (List Char)
  | 0, _ => []
  | fuel + 1, s =>
      match s with
      | [] => []
      | _ :: rest =>
          match tm s with
          | some (n + 1) => s.take (n + 1) :: scanGo tm fuel (s.drop (n + 1))
          | _ => scanGo tm fuel rest

/-- All matches of `tm` in `s`, in scan order. -/
def scanMatches (tm : List Char → Option Nat) (s : List Char) : List (List Char) :=
  scanGo tm (s.length + 1) s

/-- Value `parseInt(match.match(/\d+/)[0])` reads from a matched substring:
the first digit run. -/
def firstDigitRunValue (m : List Char) : Nat :=
  digitsToNat ((m.dropWhile (fun c => !c.isDigit)).takeWhile Char.isDigit)

/-- Integers matched by the three experience patterns of
`extractExperience`, in the loop's pattern-then-match order. -/
def matchedYears (text : String) : List Nat :=
  (scanMatches tryYears1 text.toList ++ scanMatches tryYears2 text.toList ++
    scanMatches tryYears3 text.toList).map firstDigitRunValue

/-- The `totalYears` computation of `extractExperience`: the running
maximum (`if (years > maxYears) maxYears = years`) over all matched
integers, starting from 0. -/
def extractExperienceYears (text : String) : Nat :=
  (matchedYears text).foldl (fun m y => if y > m then y else m) 0

/-- Maximum matched integer across the three patterns, 0 when none match —
this definition follows the specification's words, to be compared with the
source-derived loop `extractExperienceYears`. -/
def specTotalYears (text : String) : Nat :=
  (matchedYears text).foldr max 0

lemma foldl_gt_eq_max (l : List Nat) :
    ∀ a : Nat,
      l.foldl (fun m y => if y > m then y else m) a = max a (l.foldr max 0) := by
  induction l with
  | nil => intro a; simp
  | cons x rest ih =>
      intro a
      rw [List.foldl_cons, List.foldr_cons, ih]
      have hx : (if x > a then x else a) = max a x := by
        rw [max_def]
        by_cases h2 : x > a
        · rw [if_pos (Nat.le_of_lt h2), if_pos h2]
        · rw [if_neg h2]
          by_cases h : a ≤ x
          · rw [if_pos h]; omega
          · rw [if_neg h]
      rw [hx]
      exact max_assoc a x _

/-- C7: `extractExperience` returns as `totalYears` the maximum integer
matched across the three experience-years regexes (0 when none match), and
on the input "5+ years of experience in backend systems, 3 years in DevOps"
that maximum is 5. -/
theorem c7_experience_years (text : String) :
    extractExperienceYears text = specTotalYears text ∧
    extractExperienceYears
      "5+ years of experience in backend systems, 3 years in DevOps" = 5 := by
  constructor
  · rw [extractExperienceYears, specTotalYears, foldl_gt_eq_max]
    simp
  · decide
